import Mathlib

/-!
Verification development for the "Lily — Your AI Recruiter (MVP)" backend
(`main.py`, `schemas.py`).  Strings are modelled as lists of characters
(`Str`).  The document store behind `database.py` is modelled as an explicit
`Store` state threaded through each handler; `db` being available or not is
an `Option Store`.  Handlers that can raise are embedded in `Except`.
-/

namespace Lily

/-- Strings as lists of characters. -/
abbrev Str := List Char

/-- The ASCII whitespace characters removed by Python's `str.strip()`. -/
def pyWs (c : Char) : Bool :=
  decide (c = ' ') || decide (c = '\t') || decide (c = '\n') || decide (c = '\r') ||
    decide (c = '\x0b') || decide (c = '\x0c')

/-- Position of `c` in a list of characters (used for table lookups). -/
def digitIdx : List Char → Char → Nat
  | [], _ => 0
  | d :: ds, c => if c = d then 0 else digitIdx ds c + 1

def ucLetters : List Char :=
  ['A', 'B', 'C', 'D', 'E', 'F', 'G', 'H', 'I', 'J', 'K', 'L', 'M',
   'N', 'O', 'P', 'Q', 'R', 'S', 'T', 'U', 'V', 'W', 'X', 'Y', 'Z']

def lcLetters : List Char :=
  ['a', 'b', 'c', 'd', 'e', 'f', 'g', 'h', 'i', 'j', 'k', 'l', 'm',
   'n', 'o', 'p', 'q', 'r', 's', 't', 'u', 'v', 'w', 'x', 'y', 'z']

/-- ASCII lowercasing of a single character, as Python's `str.lower()`
acts on the characters appearing in this code base. -/
def lowerChar (c : Char) : Char :=
  if c ∈ ucLetters then lcLetters.getD (digitIdx ucLetters c) c else c

/-- Python `s.lower()` on the model of strings. -/
def lowerStr (s : Str) : Str := s.map lowerChar

/-- Test `hasLead k s`: `k` is an initial run of `s`. -/
def hasLead : Str → Str → Bool
  | [], _ => true
  | _ :: _, [] => false
  | a :: ka, b :: sb => decide (a = b) && hasLead ka sb

/-- Test `hasPiece k s`: `k` occurs contiguously inside `s` (Python `k in s`). -/
def hasPiece (k : Str) : Str → Bool
  | [] => k.isEmpty
  | b :: bs => hasLead k (b :: bs) || hasPiece k bs

/-- Remove leading Python whitespace. -/
def trimHead (s : Str) : Str := s.dropWhile pyWs

/-- Remove trailing Python whitespace. -/
def trimTail (s : Str) : Str := (s.reverse.dropWhile pyWs).reverse

/-- Python's `str.strip()`. -/
def pyStrip (s : Str) : Str := trimTail (trimHead s)

/-! ### Chat endpoint (`POST /api/interview/chat`), pure reply computation -/

/-- Keyword set checked first in `chat`. -/
def kwA : List Str := ["react".toList, "frontend".toList, "ui".toList]

/-- Keyword set checked second in `chat`. -/
def kwB : List Str := ["python".toList, "backend".toList, "api".toList]

/-- Python `any(k in s for k in ks)`. -/
def kwAny (ks : List Str) (s : Str) : Bool := ks.any fun k => hasPiece k s

def genericReply : Str := "Thanks! Can you share a challenging project you led?".toList

def frontendReply : Str := "Great frontend background. How do you manage state at scale?".toList

def backendReply : Str := "Nice backend focus. How do you design resilient APIs?".toList

/-- The reply computed by `chat`: the message is stripped (`user_msg =
turn.message.strip()`) and each keyword is looked up in `user_msg.lower()`. -/
def computeReply (message : Str) : Str :=
  let u := pyStrip message
  if kwAny kwA (lowerStr u) then frontendReply
  else if kwAny kwB (lowerStr u) then backendReply
  else genericReply

/-- The reply as described by the specification: keywords are looked up in
the lowercased message itself. -/
def specChatReply (message : Str) : Str :=
  if kwAny kwA (lowerStr message) then frontendReply
  else if kwAny kwB (lowerStr message) then backendReply
  else genericReply

/-! ### Coding-run endpoint (`POST /api/interview/coding/run`), pure output -/

def successOutput : Str := "All tests passed.".toList

def compileErrorOutput : Str := "Compilation error: Unexpected token".toList

def genericOutput : Str := "Running tests...\nTest 1: PASSED\nTest 2: PASSED\nAll good!".toList

/-- The mocked judge output of `run_code`: no execution happens, the output
is chosen purely by substring checks on `req.code.lower()`. -/
def runOutput (code : Str) : Str :=
  if hasPiece ("reverse".toList) (lowerStr code) then successOutput
  else if hasPiece ("error".toList) (lowerStr code) then compileErrorOutput
  else genericOutput

/-! ### ObjectIds

`bson.ObjectId(s)` accepts a string `s` iff it is a 24-character hex string
— `bytes.fromhex` takes either case — and raises `InvalidId` otherwise.
Two spellings denote the same ObjectId iff they agree up to hex case, since
equality is on the decoded 12-byte value.  Generated ids are rendered as 24
lowercase hex characters, so the lowercased spelling is the canonical form
of an accepted id. -/

def hexDigits : Str := "0123456789abcdef".toList

def hexDigit (n : Nat) : Char := hexDigits.getD n '0'

def isHexDigit (c : Char) : Bool := decide (c ∈ ("0123456789abcdefABCDEF".toList))

/-- Little-endian hex digits of `n`, padded/truncated to width `w`. -/
def natToHexLE : Nat → Nat → Str
  | 0, _ => []
  | w + 1, n => hexDigit (n % 16) :: natToHexLE w (n / 16)

/-- The id string the store generates for the `n`-th inserted document. -/
def renderOid (n : Nat) : Str := (natToHexLE 24 n).reverse

/-- Whether `bson.ObjectId` accepts the string: 24 hex characters of either
case. -/
def isValidOid (s : Str) : Bool := decide (s.length = 24) && s.all isHexDigit

/-- Value of a little-endian hex digit list. -/
def hexValLE : Str → Nat
  | [] => 0
  | c :: cs => digitIdx hexDigits c + 16 * hexValLE cs

/-! ### Documents and store state

The documents mirror the dictionaries `main.py` persists.  The store is the
MongoDB database behind `database.py`: one list of `(id, document)` pairs
per collection, in insertion order, plus the generation state for fresh
ids. -/

structure RoleDoc where
  title : Str
  department : Option Str
  location : Option Str
  level : Option Str
  description : Str
  requirements : List Str
deriving DecidableEq

structure ApplicantDoc where
  name : Str
  email : Str
  role_id : Option Str
  resume_text : Option Str
  status : Str
deriving DecidableEq

structure MessageDoc where
  sender : Str
  text : Str
deriving DecidableEq

structure InterviewDoc where
  applicant_id : Str
  role_id : Str
  mode : Str
  messages : List MessageDoc
deriving DecidableEq

structure Store where
  roles : List (Str × RoleDoc)
  applicants : List (Str × ApplicantDoc)
  interviews : List (Str × InterviewDoc)
  nextId : Nat
deriving DecidableEq

def emptyStore : Store := ⟨[], [], [], 0⟩

/-! ### Request bodies (the FastAPI/pydantic models of `main.py`) -/

structure RoleCreate where
  title : Str
  department : Option Str := none
  location : Option Str := none
  level : Option Str := none
  description : Str
  requirements : List Str := []
deriving DecidableEq

structure ApplicantCreate where
  name : Str
  email : Str
  role_id : Option Str := none
  resume_text : Option Str := none
deriving DecidableEq

structure ChatTurn where
  interview_id : Str
  message : Str
deriving DecidableEq

structure CodingRunRequest where
  interview_id : Str
  language : Str
  code : Str
  input : Str := []
deriving DecidableEq

/-! ### Role endpoints -/

def roleDocOf (r : RoleCreate) : RoleDoc :=
  ⟨r.title, r.department, r.location, r.level, r.description, r.requirements⟩

/-- Endpoint `POST /api/roles`.  Modelled from the spec: `database.py` is not in the
repository snapshot; its `create_document` helper is "insert-and-return-id"
(spec section 2), so the role document is appended to the collection and the
fresh id is returned. -/
def create_role (r : RoleCreate) (s : Store) : Str × Store :=
  (renderOid s.nextId,
   { s with roles := s.roles ++ [(renderOid s.nextId, roleDocOf r)],
            nextId := s.nextId + 1 })

/-- Endpoint `GET /api/roles/{role_id}`: returns `{"role": None}` when the store is
absent or the id is unknown; `ObjectId(role_id)` raises `InvalidId` on a
malformed id when the store is present.  `find_one` matches on the decoded
ObjectId value: stored ids are canonical lowercase renderings, so an
accepted spelling matches exactly when its lowercased form equals the
stored id. -/
def get_role (role_id : Str) (st : Option Store) :
    Except Str (Option (Str × RoleDoc)) :=
  match st with
  | none => .ok none
  | some s =>
    if isValidOid role_id then
      match s.roles.find? (fun p => decide (p.1 = lowerStr role_id)) with
      | none => .ok none
      | some p => .ok (some p)
    else .error ("InvalidId".toList)

/-! ### Application intake (`POST /api/apply`) -/

/-- Modelled from the spec: pydantic's `EmailStr` syntactic email check.
`schemas.py` declares `Applicant.email : EmailStr` and the spec requires a
syntactically valid address (one `@`, a non-empty local part, a non-empty
domain containing a dot, no spaces). -/
def splitChar (sep : Char) : Str → List Str
  | [] => [[]]
  | c :: cs =>
    if c = sep then [] :: splitChar sep cs
    else
      match splitChar sep cs with
      | [] => [[c]]
      | p :: ps => (c :: p) :: ps

def isValidEmail (e : Str) : Bool :=
  match splitChar '@' e with
  | [l, d] =>
    !l.isEmpty && !d.isEmpty && decide ('.' ∈ d) && decide (' ' ∉ e)
  | _ => false

structure ApplyResp where
  applicant_id : Str
  suggested_roles : List Str
deriving DecidableEq

def suggestedRoles : List Str := ["Frontend Engineer".toList, "Backend Engineer".toList]

def applicantDocOf (a : ApplicantCreate) : ApplicantDoc :=
  ⟨a.name, a.email, a.role_id, a.resume_text, "applied".toList⟩

/-- Endpoint `POST /api/apply`.  Modelled from the spec: the missing `database.py`
validates the applicant document against the `Applicant` schema of
`schemas.py` (which gives `status` its default `"applied"` and makes
`create_document` fail with `ValidationError` for a syntactically invalid
email), then inserts it and returns the fresh id. -/
def apply (a : ApplicantCreate) (s : Store) : Except Str (ApplyResp × Store) :=
  if isValidEmail a.email then
    .ok (⟨renderOid s.nextId, suggestedRoles⟩,
      { s with applicants := s.applicants ++ [(renderOid s.nextId, applicantDocOf a)],
               nextId := s.nextId + 1 })
  else .error ("ValidationError".toList)

/-! ### Chat endpoint, stateful part -/

/-- Mongo `update_one` with a `push` of `msg` on `messages`: appends `msg`
to the matching interview's message list; matching no document is a
silent no-op. -/
def pushMsg (iid : Str) (msg : MessageDoc) (s : Store) : Store :=
  { s with interviews := s.interviews.map fun p =>
      if p.1 = iid then (p.1, { p.2 with messages := p.2.messages ++ [msg] }) else p }

/-- Endpoint `POST /api/interview/chat`: computes the canned reply, and when the
store is present appends the candidate message then the lily message to the
interview whose ObjectId value the accepted id denotes (its lowercased
spelling, stored ids being canonical).  `ObjectId(turn.interview_id)`
raises `InvalidId` on a malformed id. -/
def chat (t : ChatTurn) (st : Option Store) : Except Str (Str × Option Store) :=
  let u := pyStrip t.message
  let reply := computeReply t.message
  match st with
  | none => .ok (reply, none)
  | some s =>
    if isValidOid t.interview_id then
      .ok (reply, some (pushMsg (lowerStr t.interview_id) ⟨"lily".toList, reply⟩
        (pushMsg (lowerStr t.interview_id) ⟨"candidate".toList, u⟩ s)))
    else .error ("InvalidId".toList)

/-! ### Coding-run endpoint, as a handler -/

/-- Endpoint `POST /api/interview/coding/run`: no document is read or written and the
code is never executed; the response is `runOutput req.code`. -/
def run_code (req : CodingRunRequest) (st : Option Store) : Str × Option Store :=
  (runOutput req.code, st)

/-! ### Admin listing -/

/-- Endpoint `GET /api/admin/applicants`: `find().limit(50)` in insertion order, ids
exposed as the first component of each pair. -/
def admin_applicants (st : Option Store) : List (Str × ApplicantDoc) :=
  match st with
  | none => []
  | some s => s.applicants.take 50

/-! ### Startup seeding -/

def feSeed : RoleDoc :=
  ⟨"Frontend Engineer".toList, some ("Engineering".toList), some ("Remote".toList),
   some ("Mid".toList),
   "Build modern web UIs with React, TypeScript, and Tailwind.".toList,
   ["React".toList, "TypeScript".toList, "CSS".toList, "Testing".toList]⟩

def beSeed : RoleDoc :=
  ⟨"Backend Engineer".toList, some ("Engineering".toList), some ("Remote".toList),
   some ("Senior".toList),
   "Design APIs and services with Node/Go/Python.".toList,
   ["API design".toList, "Databases".toList, "Cloud".toList, "Testing".toList]⟩

def daSeed : RoleDoc :=
  ⟨"Data Analyst".toList, some ("Data".toList), some ("Hybrid".toList),
   some ("Junior".toList),
   "Analyze data and build dashboards.".toList,
   ["SQL".toList, "Python".toList, "Visualization".toList]⟩

def roleSeeds : List RoleDoc := [feSeed, beSeed, daSeed]

def insertRoleDoc (r : RoleDoc) (s : Store) : Store :=
  { s with roles := s.roles ++ [(renderOid s.nextId, r)], nextId := s.nextId + 1 }

/-- Seeding loop.  `faults` models `create_document` raising at each call
(modelled from the spec: any failure during seeding is swallowed by the
surrounding `try/except` and the inserts made so far are kept). -/
def seedAux : List RoleDoc → List Bool → Store → Store
  | [], _, s => s
  | r :: rs, fs, s =>
    if fs.headD false then s
    else seedAux rs fs.tail (insertRoleDoc r s)

/-- Startup `seed_roles`: returns immediately when the store is absent,
seeds the three fixed roles when the role collection is empty, and never
raises. -/
def seed_roles (faults : List Bool) (st : Option Store) : Option Store :=
  match st with
  | none => none
  | some s =>
    if s.roles.isEmpty then some (seedAux roleSeeds faults s)
    else some s

/-- Well-formed store: every stored role id was generated by the store. -/
def WF (s : Store) : Prop :=
  s.nextId < 16 ^ 24 ∧ ∀ p ∈ s.roles, ∃ k, k < s.nextId ∧ p.1 = renderOid k

/-! ## Lemmas about generated ids -/

theorem length_natToHexLE (w n : Nat) : (natToHexLE w n).length = w := by
  induction w generalizing n with
  | zero => rfl
  | succ w ih => simp [natToHexLE, ih]

theorem digitIdx_hexDigit : ∀ d < 16, digitIdx hexDigits (hexDigit d) = d := by decide

theorem hexValLE_natToHexLE (w n : Nat) : hexValLE (natToHexLE w n) = n % 16 ^ w := by
  induction w generalizing n with
  | zero => simp [natToHexLE, hexValLE, Nat.mod_one]
  | succ w ih =>
    have h16 : n % 16 < 16 := Nat.mod_lt _ (by norm_num)
    have hp : (16 : Nat) ^ (w + 1) = 16 * 16 ^ w := by ring
    simp only [natToHexLE, hexValLE, ih, digitIdx_hexDigit _ h16, hp, Nat.mod_mul]

theorem renderOid_injOn {a b : Nat} (ha : a < 16 ^ 24) (hb : b < 16 ^ 24)
    (h : renderOid a = renderOid b) : a = b := by
  have h2 : natToHexLE 24 a = natToHexLE 24 b := by
    have := congrArg List.reverse h
    simpa [renderOid] using this
  have h3 := congrArg hexValLE h2
  rw [hexValLE_natToHexLE, hexValLE_natToHexLE, Nat.mod_eq_of_lt ha,
    Nat.mod_eq_of_lt hb] at h3
  exact h3

theorem isHexDigit_hexDigit : ∀ d < 16, isHexDigit (hexDigit d) = true := by decide

theorem mem_natToHexLE {c : Char} {w n : Nat} (h : c ∈ natToHexLE w n) :
    isHexDigit c = true := by
  induction w generalizing n with
  | zero => simp [natToHexLE] at h
  | succ w ih =>
    simp only [natToHexLE, List.mem_cons] at h
    rcases h with h | h
    · subst h; exact isHexDigit_hexDigit _ (Nat.mod_lt _ (by norm_num))
    · exact ih h

theorem isValidOid_renderOid (n : Nat) : isValidOid (renderOid n) = true := by
  simp only [isValidOid, renderOid, Bool.and_eq_true, decide_eq_true_eq,
    List.length_reverse, length_natToHexLE, List.all_eq_true]
  exact ⟨trivial, fun c hc => mem_natToHexLE (List.mem_reverse.mp hc)⟩

theorem renderOid_ne_nil (n : Nat) : renderOid n ≠ [] := by
  intro h
  have := congrArg List.length h
  simp [renderOid, length_natToHexLE] at this

theorem find?_append_none {α : Type} (p : α → Bool) {l₁ : List α} (l₂ : List α)
    (h : l₁.find? p = none) : (l₁ ++ l₂).find? p = l₂.find? p := by
  rw [List.find?_append, h, Option.none_or]

/-! ## Lemmas about lowercasing, stripping and substring search -/

theorem pyWs_lowerChar (c : Char) : pyWs (lowerChar c) = pyWs c := by
  by_cases h : c ∈ ucLetters
  · rw [lowerChar, if_pos h]
    simp only [ucLetters, List.mem_cons, List.not_mem_nil, or_false] at h
    rcases h with rfl | rfl | rfl | rfl | rfl | rfl | rfl | rfl | rfl | rfl |
      rfl | rfl | rfl | rfl | rfl | rfl | rfl | rfl | rfl | rfl | rfl | rfl |
      rfl | rfl | rfl | rfl <;> decide
  · rw [lowerChar, if_neg h]

theorem lowerStr_dropWhile (s : Str) :
    (lowerStr s).dropWhile pyWs = lowerStr (s.dropWhile pyWs) := by
  induction s with
  | nil => rfl
  | cons c t ih =>
    have hc : lowerStr (c :: t) = lowerChar c :: lowerStr t := rfl
    rw [hc, List.dropWhile_cons, List.dropWhile_cons, pyWs_lowerChar]
    by_cases h : pyWs c = true
    · simp only [h, if_true]
      exact ih
    · simp only [if_neg h]
      exact hc.symm

theorem lowerStr_reverse (s : Str) : (lowerStr s).reverse = lowerStr s.reverse := by
  simp [lowerStr, List.map_reverse]

theorem lowerChar_hexDigit : ∀ d < 16, lowerChar (hexDigit d) = hexDigit d := by decide

theorem lowerStr_natToHexLE (w n : Nat) : lowerStr (natToHexLE w n) = natToHexLE w n := by
  induction w generalizing n with
  | zero => rfl
  | succ w ih =>
    have h16 : n % 16 < 16 := Nat.mod_lt _ (by norm_num)
    have ht := ih (n / 16)
    simp only [lowerStr] at ht
    simp only [natToHexLE, lowerStr, List.map_cons, lowerChar_hexDigit _ h16, ht]

/-- Generated ids are already in canonical lowercase form. -/
theorem lowerStr_renderOid (n : Nat) : lowerStr (renderOid n) = renderOid n := by
  unfold renderOid
  rw [← lowerStr_reverse, lowerStr_natToHexLE]

theorem lowerStr_pyStrip (s : Str) : lowerStr (pyStrip s) = pyStrip (lowerStr s) := by
  unfold pyStrip trimHead trimTail
  rw [lowerStr_dropWhile, lowerStr_reverse, lowerStr_dropWhile, lowerStr_reverse]

theorem hasLead_iff (k : Str) : ∀ s, hasLead k s = true ↔ ∃ r, s = k ++ r := by
  induction k with
  | nil =>
    intro s
    simp only [hasLead, List.nil_append, true_iff]
    exact ⟨s, rfl⟩
  | cons a ka ih =>
    intro s
    cases s with
    | nil => simp [hasLead]
    | cons b sb =>
      simp only [hasLead, Bool.and_eq_true, decide_eq_true_eq, ih]
      constructor
      · rintro ⟨rfl, r, rfl⟩
        exact ⟨r, rfl⟩
      · rintro ⟨r, h⟩
        injection h with h1 h2
        exact ⟨h1.symm, r, h2⟩

theorem hasPiece_iff (k : Str) : ∀ s, hasPiece k s = true ↔ ∃ l r, s = l ++ k ++ r := by
  intro s
  induction s with
  | nil =>
    simp only [hasPiece, List.isEmpty_iff]
    constructor
    · rintro rfl
      exact ⟨[], [], rfl⟩
    · rintro ⟨l, r, h⟩
      rcases List.append_eq_nil.mp h.symm with ⟨h1, h2⟩
      rcases List.append_eq_nil.mp h1 with ⟨_, h3⟩
      exact h3
  | cons b bs ih =>
    simp only [hasPiece, Bool.or_eq_true, hasLead_iff, ih]
    constructor
    · rintro (⟨r, hr⟩ | ⟨l, r, hr⟩)
      · exact ⟨[], r, by simpa using hr⟩
      · exact ⟨b :: l, r, by simp [hr]⟩
    · rintro ⟨l, r, hr⟩
      cases l with
      | nil => exact Or.inl ⟨r, by simpa using hr⟩
      | cons x xs =>
        injection hr with h1 h2
        exact Or.inr ⟨xs, r, h2⟩

theorem hasPiece_reverse (k s : Str) : hasPiece k s.reverse = hasPiece k.reverse s := by
  rw [Bool.eq_iff_iff, hasPiece_iff, hasPiece_iff]
  constructor
  · rintro ⟨l, r, hr⟩
    refine ⟨r.reverse, l.reverse, ?_⟩
    have := congrArg List.reverse hr
    simpa [List.reverse_append] using this
  · rintro ⟨l, r, hr⟩
    refine ⟨r.reverse, l.reverse, ?_⟩
    have := congrArg List.reverse hr
    simpa [List.reverse_append] using this

theorem hasPiece_cons_of_ws {k : Str} (hk : k ≠ []) {b : Char} {bs : Str}
    (hb : pyWs b = true) (hw : ∀ c ∈ k, pyWs c = false) :
    hasPiece k (b :: bs) = hasPiece k bs := by
  cases k with
  | nil => exact absurd rfl hk
  | cons a ka =>
    have ha : pyWs a = false := hw a (by simp)
    have hab : decide (a = b) = false := by
      simp only [decide_eq_false_iff_not]
      intro h
      rw [h, hb] at ha
      cases ha
    simp [hasPiece, hasLead, hab]

theorem hasPiece_dropWhile (k : Str) (hk : k ≠ []) (hw : ∀ c ∈ k, pyWs c = false) :
    ∀ s, hasPiece k (s.dropWhile pyWs) = hasPiece k s := by
  intro s
  induction s with
  | nil => rfl
  | cons b bs ih =>
    by_cases hb : pyWs b = true
    · rw [List.dropWhile_cons]
      simp only [hb, if_true]
      exact ih.trans (hasPiece_cons_of_ws hk hb hw).symm
    · rw [List.dropWhile_cons]
      simp [hb]

theorem hasPiece_trimTail (k : Str) (hk : k ≠ []) (hw : ∀ c ∈ k, pyWs c = false)
    (s : Str) : hasPiece k (trimTail s) = hasPiece k s := by
  unfold trimTail
  rw [hasPiece_reverse,
    hasPiece_dropWhile k.reverse (by simpa using hk) (fun c hc => hw c (List.mem_reverse.mp hc)),
    hasPiece_reverse, List.reverse_reverse]

theorem hasPiece_pyStrip (k : Str) (hk : k ≠ []) (hw : ∀ c ∈ k, pyWs c = false)
    (s : Str) : hasPiece k (pyStrip s) = hasPiece k s := by
  unfold pyStrip trimHead
  rw [hasPiece_trimTail k hk hw, hasPiece_dropWhile k hk hw]

theorem kwA_strip (m : Str) :
    kwAny kwA (lowerStr (pyStrip m)) = kwAny kwA (lowerStr m) := by
  unfold kwAny kwA
  rw [lowerStr_pyStrip]
  simp only [List.any_cons, List.any_nil]
  rw [hasPiece_pyStrip _ (by decide) (by decide),
    hasPiece_pyStrip _ (by decide) (by decide),
    hasPiece_pyStrip _ (by decide) (by decide)]

theorem kwB_strip (m : Str) :
    kwAny kwB (lowerStr (pyStrip m)) = kwAny kwB (lowerStr m) := by
  unfold kwAny kwB
  rw [lowerStr_pyStrip]
  simp only [List.any_cons, List.any_nil]
  rw [hasPiece_pyStrip _ (by decide) (by decide),
    hasPiece_pyStrip _ (by decide) (by decide),
    hasPiece_pyStrip _ (by decide) (by decide)]

/-! ## Claim theorems -/

/-- C4: for every message, the chat reply is the fixed frontend-probing
question if the lowercased message contains any of "react", "frontend",
"ui"; otherwise the fixed backend-probing question if it contains any of
"python", "backend", "api"; otherwise the fixed generic probing question.
A message matching both sets yields the frontend reply; one matching
neither yields the generic reply. -/
theorem chat_keyword_reply :
    (∀ m, computeReply m = specChatReply m)
  ∧ computeReply ("I love React and also Python".toList) = frontendReply
  ∧ computeReply ("I enjoy hiking".toList) = genericReply := by
  refine ⟨?_, by decide, by decide⟩
  intro m
  simp only [computeReply, specChatReply]
  rw [kwA_strip, kwB_strip]

/-- C5: for every code string, `run_code`'s stdout is the fixed success
message if the lowercased code contains "reverse"; otherwise the fixed
compilation-error message if it contains "error"; otherwise the fixed
generic tests-passed message.  The output is computed purely from the code
text; nothing is executed. -/
theorem run_code_output_cases :
    (∀ c, hasPiece ("reverse".toList) (lowerStr c) = true →
      runOutput c = successOutput)
  ∧ (∀ c, hasPiece ("reverse".toList) (lowerStr c) = false →
      hasPiece ("error".toList) (lowerStr c) = true →
      runOutput c = compileErrorOutput)
  ∧ (∀ c, hasPiece ("reverse".toList) (lowerStr c) = false →
      hasPiece ("error".toList) (lowerStr c) = false →
      runOutput c = genericOutput) := by
  refine ⟨?_, ?_, ?_⟩
  · intro c h
    unfold runOutput
    rw [h]
    simp
  · intro c h1 h2
    unfold runOutput
    rw [h1, h2]
    simp
  · intro c h1 h2
    unfold runOutput
    rw [h1, h2]
    simp

theorem run_code_output_cases_witness :
    runOutput ("function REVERSE(s)".toList) = successOutput
  ∧ runOutput ("throw Error".toList) = compileErrorOutput
  ∧ runOutput ("print(1)".toList) = genericOutput :=
  ⟨run_code_output_cases.1 _ (by decide),
   run_code_output_cases.2.1 _ (by decide) (by decide),
   run_code_output_cases.2.2 _ (by decide) (by decide)⟩

/-- C10: the stdout returned by `run_code` depends only on the `code`
field: two requests with equal code yield identical stdout whatever their
`interview_id`, `language` and `input` fields and whatever the store state;
and `run_code` leaves the store untouched (it neither reads nor writes any
document). -/
theorem run_code_depends_only_on_code :
    (∀ (r₁ r₂ : CodingRunRequest) (st₁ st₂ : Option Store), r₁.code = r₂.code →
      (run_code r₁ st₁).1 = (run_code r₂ st₂).1)
  ∧ (∀ r st, (run_code r st).2 = st) :=
  ⟨fun r₁ r₂ st₁ st₂ h => by simp [run_code, h], fun r st => rfl⟩

theorem run_code_depends_only_on_code_witness :
    (run_code ⟨"i1".toList, "python".toList, "x".toList, "a".toList⟩
        (some emptyStore)).1
      = (run_code ⟨"i2".toList, "javascript".toList, "x".toList, "b".toList⟩
        none).1 :=
  run_code_depends_only_on_code.1 _ _ _ _ rfl

/-- C9: the admin applicants listing returns at most 50 documents for every
store state, and exactly 50 when the store holds 60 applicants; each item
carries its id as the first component. -/
theorem admin_applicants_cap :
    (∀ st, (admin_applicants st).length ≤ 50)
  ∧ (∀ s : Store, s.applicants.length = 60 →
      (admin_applicants (some s)).length = 50) := by
  constructor
  · intro st
    rcases st with _ | s
    · simp [admin_applicants]
    · simp only [admin_applicants, List.length_take]
      exact min_le_left _ _
  · intro s h
    simp [admin_applicants, List.length_take, h]

theorem admin_applicants_cap_witness :
    (admin_applicants (some { emptyStore with
        applicants := List.replicate 60
          (renderOid 0, ⟨"n".toList, "e@x.co".toList, none, none,
            "applied".toList⟩) })).length = 50 :=
  admin_applicants_cap.2 _ (by simp)

/-- C6: startup seeding inserts exactly the three fixed roles when the role
collection is empty, inserts nothing when a role already exists (so a
second run is a no-op), returns immediately when the store is absent, and
never raises: every fault pattern still yields a store. -/
theorem seed_roles_spec :
    (∀ faults, seed_roles faults none = none)
  ∧ (∀ faults s, s.roles ≠ [] → seed_roles faults (some s) = some s)
  ∧ (∀ s : Store, s.roles = [] → seed_roles [] (some s) = some
      { s with
          roles := [(renderOid s.nextId, feSeed), (renderOid (s.nextId + 1), beSeed),
            (renderOid (s.nextId + 2), daSeed)],
          nextId := s.nextId + 3 })
  ∧ (∀ faults s, ∃ s', seed_roles faults (some s) = some s')
  ∧ (∀ s : Store, s.roles = [] → ∀ faults,
      seed_roles faults (seed_roles [] (some s)) = seed_roles [] (some s)) := by
  refine ⟨fun _ => rfl, ?_, ?_, ?_, ?_⟩
  · intro faults s h
    have he : s.roles.isEmpty = false := by
      cases hr : s.roles with
      | nil => exact absurd hr h
      | cons a l => rfl
    simp [seed_roles, he]
  · intro s h
    obtain ⟨ro, ap, iv, ni⟩ := s
    simp only at h
    subst h
    rfl
  · intro faults s
    by_cases h : s.roles.isEmpty = true
    · refine ⟨seedAux roleSeeds faults s, ?_⟩
      simp [seed_roles, h]
    · refine ⟨s, ?_⟩
      simp [seed_roles, h]
  · intro s h faults
    obtain ⟨ro, ap, iv, ni⟩ := s
    simp only at h
    subst h
    rfl

theorem seed_roles_spec_witness :
    seed_roles [] (some emptyStore) = some
      { emptyStore with
          roles := [(renderOid 0, feSeed), (renderOid 1, beSeed), (renderOid 2, daSeed)],
          nextId := 3 }
  ∧ seed_roles [true] (some { emptyStore with
        roles := [(renderOid 0, feSeed)], nextId := 1 })
      = some { emptyStore with roles := [(renderOid 0, feSeed)], nextId := 1 }
  ∧ seed_roles [] (seed_roles [] (some emptyStore)) = seed_roles [] (some emptyStore) :=
  ⟨seed_roles_spec.2.2.1 emptyStore rfl,
   seed_roles_spec.2.1 _ _ (by simp),
   seed_roles_spec.2.2.2.2 emptyStore rfl []⟩

/-- C1: `apply` fails with `ValidationError` (persisting nothing) whenever
the email is not syntactically valid — in particular for the literal
`"not-an-email"` — and succeeds for every request with a present name and
a syntactically valid email. -/
theorem apply_validation :
    (∀ (a : ApplicantCreate) (s : Store), isValidEmail a.email = false →
      apply a s = .error ("ValidationError".toList))
  ∧ (∀ (a : ApplicantCreate) (s : Store), isValidEmail a.email = true →
      apply a s = .ok (⟨renderOid s.nextId, suggestedRoles⟩,
        { s with
            applicants := s.applicants ++ [(renderOid s.nextId, applicantDocOf a)],
            nextId := s.nextId + 1 }))
  ∧ isValidEmail ("not-an-email".toList) = false := by
  refine ⟨?_, ?_, by decide⟩
  · intro a s h
    unfold apply
    rw [h]
    simp
  · intro a s h
    unfold apply
    rw [h]
    simp

theorem apply_validation_witness :
    apply ⟨"Jo".toList, "not-an-email".toList, none, none⟩ emptyStore
      = .error ("ValidationError".toList)
  ∧ apply ⟨"Jo".toList, "jo@example.com".toList, none, none⟩ emptyStore
      = .ok (⟨renderOid 0, suggestedRoles⟩,
        { emptyStore with
            applicants := [(renderOid 0,
              applicantDocOf ⟨"Jo".toList, "jo@example.com".toList, none, none⟩)],
            nextId := 1 }) :=
  ⟨apply_validation.1 _ _ (by decide), apply_validation.2.1 _ _ (by decide)⟩

/-- C7: for every request with a valid email, `apply` persists an applicant
document with status `"applied"` and returns the fresh id together with the
static suggestion list `["Frontend Engineer", "Backend Engineer"]`,
independently of the supplied `role_id` and `resume_text` (both are
arbitrary here). -/
theorem apply_persists (a : ApplicantCreate) (s : Store)
    (h : isValidEmail a.email = true) :
    apply a s = .ok (⟨renderOid s.nextId, suggestedRoles⟩,
      { s with
          applicants := s.applicants ++ [(renderOid s.nextId,
            ⟨a.name, a.email, a.role_id, a.resume_text, "applied".toList⟩)],
          nextId := s.nextId + 1 })
    ∧ suggestedRoles = ["Frontend Engineer".toList, "Backend Engineer".toList] := by
  refine ⟨?_, rfl⟩
  unfold apply
  rw [h]
  simp [applicantDocOf]

theorem apply_persists_witness :
    apply ⟨"Ada".toList, "ada@b.co".toList, some ("r1".toList), some ("cv".toList)⟩
        emptyStore
      = .ok (⟨renderOid 0, suggestedRoles⟩,
        { emptyStore with
            applicants := [(renderOid 0,
              ⟨"Ada".toList, "ada@b.co".toList, some ("r1".toList), some ("cv".toList),
                "applied".toList⟩)],
            nextId := 1 })
    ∧ suggestedRoles = ["Frontend Engineer".toList, "Backend Engineer".toList] :=
  apply_persists _ _ (by decide)

/-- C2, counterexample: with the store present, a malformed role id makes
`get_role` raise `InvalidId` instead of returning a null role, refuting
"returns role = null when the id is malformed ... and never raises". -/
theorem get_role_malformed_raises :
    get_role ("xyz".toList) (some emptyStore) = .error ("InvalidId".toList) := rfl

/-- C2, amended: `get_role` returns a null role when the store is absent,
or when the id is a 24-character hex string (either case) whose ObjectId
value matches no stored role; it raises `InvalidId` when the id is not a
24-character hex string and the store is present; and it returns the stored
role (id exposed) when the accepted id's value — its lowercased spelling,
stored ids being canonical — is found. -/
theorem get_role_behavior :
    (∀ rid, get_role rid none = .ok none)
  ∧ (∀ rid s, isValidOid rid = false →
      get_role rid (some s) = .error ("InvalidId".toList))
  ∧ (∀ rid s, isValidOid rid = true →
      s.roles.find? (fun p => decide (p.1 = lowerStr rid)) = none →
      get_role rid (some s) = .ok none)
  ∧ (∀ rid s pr, isValidOid rid = true →
      s.roles.find? (fun p => decide (p.1 = lowerStr rid)) = some pr →
      get_role rid (some s) = .ok (some pr)) := by
  refine ⟨fun rid => rfl, ?_, ?_, ?_⟩
  · intro rid s h
    simp only [get_role]
    rw [h]
    simp
  · intro rid s h hf
    simp only [get_role]
    rw [h, hf]
    simp
  · intro rid s pr h hf
    simp only [get_role]
    rw [h, hf]
    simp

theorem get_role_behavior_witness :
    get_role ("ab".toList) (some emptyStore) = .error ("InvalidId".toList)
  ∧ get_role ("ABCDEFABCDEFABCDEFABCDEF".toList) (some emptyStore) = .ok none
  ∧ get_role ("ABCDEFABCDEFABCDEFABCDEF".toList)
      (some { emptyStore with
          roles := [("abcdefabcdefabcdefabcdef".toList,
            ⟨"T".toList, none, none, none, "D".toList, []⟩)] })
      = .ok (some ("abcdefabcdefabcdefabcdef".toList,
          ⟨"T".toList, none, none, none, "D".toList, []⟩)) :=
  ⟨get_role_behavior.2.1 _ _ (by decide),
   get_role_behavior.2.2.1 _ _ (by decide) rfl,
   get_role_behavior.2.2.2 _ _ _ (by decide) rfl⟩

/-- C3, counterexample: with the store present, a malformed interview id
makes `chat` raise `InvalidId` before any append, so the computed reply is
not returned — refuting "for every chat call, the computed reply is
returned to the caller". -/
theorem chat_malformed_id_raises :
    chat ⟨"bad".toList, "hi".toList⟩ (some emptyStore)
      = .error ("InvalidId".toList) := rfl

/-- C3, amended: whenever the store is absent or the interview id is a
24-character hex string (either case, all of which `ObjectId` accepts),
`chat` returns the computed reply; in particular an append matching no
interview — no stored interview carries the id's canonical lowercased
spelling — is silently dropped: it neither changes the store nor affects
the reply. -/
theorem chat_reply_returned (t : ChatTurn) (st : Option Store)
    (h : st = none ∨ isValidOid t.interview_id = true) :
    (∃ st', chat t st = .ok (computeReply t.message, st'))
  ∧ (∀ s, st = some s → (∀ p ∈ s.interviews, p.1 ≠ lowerStr t.interview_id) →
      chat t st = .ok (computeReply t.message, some s)) := by
  constructor
  · rcases st with _ | s
    · exact ⟨none, rfl⟩
    · rcases h with h | h
      · cases h
      · refine ⟨some (pushMsg (lowerStr t.interview_id)
            ⟨"lily".toList, computeReply t.message⟩
          (pushMsg (lowerStr t.interview_id)
            ⟨"candidate".toList, pyStrip t.message⟩ s)), ?_⟩
        simp only [chat]
        rw [h]
        simp
  · intro s hs hnone
    subst hs
    rcases h with h | h
    · cases h
    · have hpush : ∀ msg, pushMsg (lowerStr t.interview_id) msg s = s := by
        intro msg
        unfold pushMsg
        have hmap : s.interviews.map (fun p =>
            if p.1 = lowerStr t.interview_id
            then (p.1, { p.2 with messages := p.2.messages ++ [msg] }) else p)
              = s.interviews := by
          rw [List.map_congr_left (g := id) ?_, List.map_id]
          intro p hp
          simp [hnone p hp]
        rw [hmap]
      simp only [chat]
      rw [h, hpush, hpush]
      simp

theorem chat_reply_returned_witness :
    (∃ st', chat ⟨"ABCDEFABCDEFABCDEFABCDEF".toList, "I like UI work".toList⟩
        (some emptyStore) = .ok (computeReply ("I like UI work".toList), st'))
  ∧ chat ⟨"ABCDEFABCDEFABCDEFABCDEF".toList, "I like UI work".toList⟩
        (some emptyStore)
      = .ok (computeReply ("I like UI work".toList), some emptyStore) := by
  have h := chat_reply_returned
    ⟨"ABCDEFABCDEFABCDEFABCDEF".toList, "I like UI work".toList⟩
    (some emptyStore) (Or.inr (by decide))
  exact ⟨h.1, h.2 emptyStore rfl (by simp [emptyStore])⟩

/-- C8: creating a role in a well-formed store and fetching it by the
returned id yields exactly the input's fields (with `requirements` as
supplied, pydantic's default being `[]`) paired with the returned id, and
that id is non-empty. -/
theorem role_round_trip (r : RoleCreate) (s : Store) (h : WF s) :
    get_role (create_role r s).1 (some (create_role r s).2)
      = .ok (some ((create_role r s).1,
          ⟨r.title, r.department, r.location, r.level, r.description,
            r.requirements⟩))
    ∧ (create_role r s).1 ≠ [] := by
  obtain ⟨hn, hids⟩ := h
  constructor
  · have hnone : s.roles.find? (fun p => decide (p.1 = renderOid s.nextId)) = none := by
      rw [List.find?_eq_none]
      intro x hx
      obtain ⟨k, hk, hx1⟩ := hids x hx
      simp only [decide_eq_true_eq]
      intro heq
      have hkn : k = s.nextId :=
        renderOid_injOn (lt_trans hk hn) hn (hx1 ▸ heq)
      omega
    simp only [create_role, get_role]
    rw [if_pos (isValidOid_renderOid s.nextId)]
    simp only [lowerStr_renderOid]
    rw [find?_append_none _ _ hnone]
    simp [List.find?_cons, roleDocOf]
  · exact renderOid_ne_nil s.nextId

theorem role_round_trip_witness :
    WF emptyStore
  ∧ (get_role (create_role ⟨"QA".toList, none, none, none, "test".toList, []⟩
        emptyStore).1
      (some (create_role ⟨"QA".toList, none, none, none, "test".toList, []⟩
        emptyStore).2)
      = .ok (some ((create_role ⟨"QA".toList, none, none, none, "test".toList, []⟩
          emptyStore).1,
          ⟨"QA".toList, none, none, none, "test".toList, []⟩))
    ∧ (create_role ⟨"QA".toList, none, none, none, "test".toList, []⟩
        emptyStore).1 ≠ []) := by
  have hwf : WF emptyStore := ⟨by decide, by simp [emptyStore]⟩
  exact ⟨hwf, role_round_trip _ emptyStore hwf⟩

end Lily
